import Mathlib

/-!
# Verification of the constant-product AMM pool (`dex.rs`, `market-making.rs`)

Shallow embedding of the two liquidity/swap contracts of the repository.

Modelling conventions:
* `Balance` (u128 in ink!) is modelled as `Nat`; the spec treats amounts as
  unsigned integers and flags multiplication overflow as a separate known
  issue outside the formulas themselves.
* `AccountId` is modelled as `Nat`; the `Mapping`/`HashMap` ledgers become
  total functions `Nat → Nat` with default value `0`, matching the source's
  `get(..).unwrap_or(0)` reads.
* Rust panics reachable at the public interface are modelled as explicit
  error values: an `assert!` becomes a checked branch returning the error
  named by its message; an unguarded division whose divisor can be zero
  becomes a `divByZero` check; an unguarded subtraction that can underflow
  becomes an `underflow` check.  A subtraction that a preceding source
  `assert!` already bounds is kept as plain `Nat` subtraction (it is exact
  there).
-/

/-- Pool storage of the `simple_dex` contract (`dex.rs`, lines 11-20). -/
structure SimpleDex where
  token_a_balance : Nat
  token_b_balance : Nat
  total_liquidity : Nat
  liquidity_providers : Nat → Nat

/-- Panics reachable through the `simple_dex` messages. -/
inductive DexError where
  | insufficientLiquidity
  | divByZero
  | underflow
  deriving DecidableEq, Repr

/-- `calculate_liquidity` (`dex.rs`, lines 91-99): the minted amount is
`min(amount_a, amount_b)`, and `0` when either amount is `0`. -/
def SimpleDex.calculate_liquidity (amount_a amount_b : Nat) : Nat :=
  if amount_a = 0 ∨ amount_b = 0 then 0 else min amount_a amount_b

/-- Constructor `new` (`dex.rs`, lines 23-35). -/
def SimpleDex.new (caller initial_a initial_b : Nat) : SimpleDex :=
  let total_liquidity := SimpleDex.calculate_liquidity initial_a initial_b
  { token_a_balance := initial_a
    token_b_balance := initial_b
    total_liquidity := total_liquidity
    liquidity_providers := fun q => if q = caller then total_liquidity else 0 }

/-- `add_liquidity` (`dex.rs`, lines 39-48): mints
`calculate_liquidity amount_a amount_b` shares unconditionally, adds both
amounts to the reserves, and credits the caller.  It has no failure path. -/
def SimpleDex.add_liquidity (s : SimpleDex) (caller amount_a amount_b : Nat) :
    SimpleDex × Nat :=
  let liquidity_minted := SimpleDex.calculate_liquidity amount_a amount_b
  let user_liquidity := s.liquidity_providers caller
  ({ token_a_balance := s.token_a_balance + amount_a
     token_b_balance := s.token_b_balance + amount_b
     total_liquidity := s.total_liquidity + liquidity_minted
     liquidity_providers := fun q =>
       if q = caller then user_liquidity + liquidity_minted
       else s.liquidity_providers q },
   liquidity_minted)

/-- `remove_liquidity` (`dex.rs`, lines 52-63).  The source `assert!`s
`user_liquidity >= liquidity`, then divides by `total_liquidity` with no
zero guard, then subtracts the computed amounts from the reserves with no
bound guard. -/
def SimpleDex.remove_liquidity (s : SimpleDex) (caller liquidity : Nat) :
    Except DexError (SimpleDex × Nat × Nat) :=
  let user_liquidity := s.liquidity_providers caller
  if user_liquidity < liquidity then .error .insufficientLiquidity
  else if s.total_liquidity = 0 then .error .divByZero
  else
    let amount_a := liquidity * s.token_a_balance / s.total_liquidity
    let amount_b := liquidity * s.token_b_balance / s.total_liquidity
    if amount_a ≤ s.token_a_balance then
      if amount_b ≤ s.token_b_balance then
        if liquidity ≤ s.total_liquidity then
          .ok ({ token_a_balance := s.token_a_balance - amount_a
                 token_b_balance := s.token_b_balance - amount_b
                 total_liquidity := s.total_liquidity - liquidity
                 liquidity_providers := fun q =>
                   if q = caller then user_liquidity - liquidity
                   else s.liquidity_providers q },
               amount_a, amount_b)
        else .error .underflow
      else .error .underflow
    else .error .underflow

/-- `get_amount_out` (`dex.rs`, lines 84-88):
`(amount_in * reserve_out) / (reserve_in + amount_in)`, a division that
panics when the divisor is zero. -/
def SimpleDex.get_amount_out (amount_in reserve_in reserve_out : Nat) :
    Except DexError Nat :=
  if reserve_in + amount_in = 0 then .error .divByZero
  else .ok ((amount_in * reserve_out) / (reserve_in + amount_in))

/-- `swap_a_for_b` (`dex.rs`, lines 67-72). -/
def SimpleDex.swap_a_for_b (s : SimpleDex) (amount_a : Nat) :
    Except DexError (SimpleDex × Nat) :=
  match SimpleDex.get_amount_out amount_a s.token_a_balance s.token_b_balance with
  | .error e => .error e
  | .ok amount_b =>
    if amount_b ≤ s.token_b_balance then
      .ok ({ s with token_a_balance := s.token_a_balance + amount_a
                    token_b_balance := s.token_b_balance - amount_b },
           amount_b)
    else .error .underflow

/-- `swap_b_for_a` (`dex.rs`, lines 76-81). -/
def SimpleDex.swap_b_for_a (s : SimpleDex) (amount_b : Nat) :
    Except DexError (SimpleDex × Nat) :=
  match SimpleDex.get_amount_out amount_b s.token_b_balance s.token_a_balance with
  | .error e => .error e
  | .ok amount_a =>
    if amount_a ≤ s.token_a_balance then
      .ok ({ s with token_b_balance := s.token_b_balance + amount_b
                    token_a_balance := s.token_a_balance - amount_a },
           amount_a)
    else .error .underflow

/-- A swap direction: which reserve plays "in". -/
inductive SwapDir where
  | aForB
  | bForA
  deriving DecidableEq, Repr

/-- Run one swap message in the given direction, keeping only the state. -/
def SimpleDex.applySwap (s : SimpleDex) (d : SwapDir) (x : Nat) :
    Except DexError SimpleDex :=
  match d with
  | .aForB =>
    match s.swap_a_for_b x with
    | .ok r => .ok r.1
    | .error e => .error e
  | .bForA =>
    match s.swap_b_for_a x with
    | .ok r => .ok r.1
    | .error e => .error e

/-- Run a sequence of swap messages. -/
def SimpleDex.applySwaps (s : SimpleDex) :
    List (SwapDir × Nat) → Except DexError SimpleDex
  | [] => .ok s
  | (d, x) :: rest =>
    match s.applySwap d x with
    | .ok t => t.applySwaps rest
    | .error e => .error e

/-- Storage of the `market_maker` contract (`market-making.rs`, lines 9-15).
The `owner` field is irrelevant to the verified messages and omitted. -/
structure MarketMaker where
  eth_reserve : Nat
  token_reserve : Nat
  token_balances : Nat → Nat

/-- Panics reachable through the `market_maker` messages. -/
inductive MmError where
  | invalidAmount
  | notEnoughLiquidity
  | divByZero
  | underflow
  deriving DecidableEq, Repr

/-- `get_eth_price` (`market-making.rs`, lines 126-128):
`eth_reserve * token_amount / token_reserve`, panicking on a zero divisor. -/
def MarketMaker.get_eth_price (s : MarketMaker) (token_amount : Nat) :
    Except MmError Nat :=
  if s.token_reserve = 0 then .error .divByZero
  else .ok (s.eth_reserve * token_amount / s.token_reserve)

/-- `swap_tokens_for_eth` (`market-making.rs`, lines 99-124).  The source
asserts `token_in > 0` and `eth_out <= eth_reserve`, but never compares
`token_in` with the caller's recorded balance: the only protection there is
the unguarded subtraction `caller_balance - token_in`. -/
def MarketMaker.swap_tokens_for_eth (s : MarketMaker) (caller token_in : Nat) :
    Except MmError (MarketMaker × Nat) :=
  if token_in = 0 then .error .invalidAmount
  else
    match s.get_eth_price token_in with
    | .error e => .error e
    | .ok eth_out =>
      if eth_out ≤ s.eth_reserve then
        let caller_balance := s.token_balances caller
        if token_in ≤ caller_balance then
          .ok ({ eth_reserve := s.eth_reserve - eth_out
                 token_reserve := s.token_reserve + token_in
                 token_balances := fun q =>
                   if q = caller then caller_balance - token_in
                   else s.token_balances q },
               eth_out)
        else .error .underflow
      else .error .notEnoughLiquidity

/-- `withdraw_liquidity` (`market-making.rs`, lines 135-160).  The source
asserts only `eth_amount <= eth_reserve && token_amount <= token_reserve`;
it never checks the caller's recorded `token_balances` entry, and ties no
check at all to `eth_amount`.  On success `eth_amount` is transferred out to
the caller. -/
def MarketMaker.withdraw_liquidity (s : MarketMaker)
    (caller eth_amount token_amount : Nat) : Except MmError MarketMaker :=
  if eth_amount ≤ s.eth_reserve ∧ token_amount ≤ s.token_reserve then
    let caller_balance := s.token_balances caller
    if token_amount ≤ caller_balance then
      .ok { eth_reserve := s.eth_reserve - eth_amount
            token_reserve := s.token_reserve - token_amount
            token_balances := fun q =>
              if q = caller then caller_balance - token_amount
              else s.token_balances q }
    else .error .underflow
  else .error .notEnoughLiquidity

/-! ## Arithmetic facts about the constant-product formula -/

/-- The computed output never exceeds the out-reserve (the divisor dominates
the `amount_in` factor), so the reserve subtraction in a swap is exact. -/
lemma amount_out_le (x b d : Nat) (hx : x ≤ d) (hd : 0 < d) : x * b / d ≤ b :=
  calc x * b / d ≤ d * b / d := Nat.div_le_div_right (Nat.mul_le_mul_right b hx)
    _ = b := Nat.mul_div_cancel_left b hd

/-- With a positive in-reserve and positive out-reserve, the output is
strictly below the out-reserve. -/
lemma amount_out_lt (x a b : Nat) (ha : 0 < a) (hb : 0 < b) :
    x * b / (a + x) < b := by
  rw [Nat.div_lt_iff_lt_mul (by omega)]
  have hba : 0 < b * a := Nat.mul_pos hb ha
  calc x * b = b * x := Nat.mul_comm x b
    _ < b * a + b * x := by omega
    _ = b * (a + x) := by ring

/-- Floor rounding of the swap output never decreases the reserve product. -/
lemma swap_product_le (a b x : Nat) :
    a * b ≤ (a + x) * (b - x * b / (a + x)) := by
  have h1 : x * b / (a + x) * (a + x) ≤ x * b := Nat.div_mul_le_self (x * b) (a + x)
  have h2 : (b - x * b / (a + x)) * (a + x) =
      b * (a + x) - x * b / (a + x) * (a + x) := Nat.sub_mul _ _ _
  have h3 : b * (a + x) = b * a + b * x := by ring
  have hcomm : x * b = b * x := Nat.mul_comm x b
  calc a * b = b * (a + x) - b * x := by rw [h3, Nat.mul_comm a b]; omega
    _ ≤ b * (a + x) - x * b / (a + x) * (a + x) :=
        Nat.sub_le_sub_left (hcomm ▸ h1) _
    _ = (b - x * b / (a + x)) * (a + x) := h2.symm
    _ = (a + x) * (b - x * b / (a + x)) := Nat.mul_comm _ _

/-- Exact description of a successful `swap_a_for_b` call: any positive
divisor makes `get_amount_out` return the floor formula, and the output is
small enough that the reserve subtraction proceeds. -/
lemma swap_a_for_b_spec (s : SimpleDex) (x : Nat)
    (h : 0 < s.token_a_balance + x) :
    s.swap_a_for_b x =
      .ok ({ s with
             token_a_balance := s.token_a_balance + x
             token_b_balance :=
               s.token_b_balance -
                 x * s.token_b_balance / (s.token_a_balance + x) },
           x * s.token_b_balance / (s.token_a_balance + x)) := by
  unfold SimpleDex.swap_a_for_b SimpleDex.get_amount_out
  rw [if_neg (by omega)]
  exact if_pos (amount_out_le x s.token_b_balance (s.token_a_balance + x)
    (by omega) h)

/-- Exact description of a successful `swap_b_for_a` call. -/
lemma swap_b_for_a_spec (s : SimpleDex) (x : Nat)
    (h : 0 < s.token_b_balance + x) :
    s.swap_b_for_a x =
      .ok ({ s with
             token_b_balance := s.token_b_balance + x
             token_a_balance :=
               s.token_a_balance -
                 x * s.token_a_balance / (s.token_b_balance + x) },
           x * s.token_a_balance / (s.token_b_balance + x)) := by
  unfold SimpleDex.swap_b_for_a SimpleDex.get_amount_out
  rw [if_neg (by omega)]
  exact if_pos (amount_out_le x s.token_a_balance (s.token_b_balance + x)
    (by omega) h)

/-- One swap message in either direction, from a funded pool and with a
positive input, succeeds, keeps both reserves positive, and does not
decrease the reserve product. -/
lemma applySwap_ok (s : SimpleDex) (d : SwapDir) (x : Nat)
    (ha : 0 < s.token_a_balance) (hb : 0 < s.token_b_balance) (hx : 0 < x) :
    ∃ t, s.applySwap d x = .ok t ∧ 0 < t.token_a_balance ∧
      0 < t.token_b_balance ∧
      s.token_a_balance * s.token_b_balance ≤
        t.token_a_balance * t.token_b_balance := by
  cases d with
  | aForB =>
    refine ⟨{ s with
              token_a_balance := s.token_a_balance + x
              token_b_balance := s.token_b_balance -
                x * s.token_b_balance / (s.token_a_balance + x) },
            ?_, ?_, ?_, ?_⟩
    · simp only [SimpleDex.applySwap]
      rw [swap_a_for_b_spec s x (by omega)]
    · dsimp; omega
    · dsimp
      have := amount_out_lt x s.token_a_balance s.token_b_balance ha hb
      omega
    · exact swap_product_le s.token_a_balance s.token_b_balance x
  | bForA =>
    refine ⟨{ s with
              token_b_balance := s.token_b_balance + x
              token_a_balance := s.token_a_balance -
                x * s.token_a_balance / (s.token_b_balance + x) },
            ?_, ?_, ?_, ?_⟩
    · simp only [SimpleDex.applySwap]
      rw [swap_b_for_a_spec s x (by omega)]
    · dsimp
      have := amount_out_lt x s.token_b_balance s.token_a_balance hb ha
      omega
    · dsimp; omega
    · dsimp
      calc s.token_a_balance * s.token_b_balance
          = s.token_b_balance * s.token_a_balance := Nat.mul_comm _ _
        _ ≤ (s.token_b_balance + x) * (s.token_a_balance -
              x * s.token_a_balance / (s.token_b_balance + x)) :=
            swap_product_le s.token_b_balance s.token_a_balance x
        _ = (s.token_a_balance -
              x * s.token_a_balance / (s.token_b_balance + x)) *
            (s.token_b_balance + x) := Nat.mul_comm _ _

/-- Any sequence of positive-input swaps from a funded pool succeeds, keeps
both reserves positive, and does not decrease the reserve product. -/
lemma applySwaps_ok (l : List (SwapDir × Nat)) :
    ∀ s : SimpleDex, 0 < s.token_a_balance → 0 < s.token_b_balance →
      (∀ p ∈ l, 0 < p.2) →
      ∃ t, s.applySwaps l = .ok t ∧ 0 < t.token_a_balance ∧
        0 < t.token_b_balance ∧
        s.token_a_balance * s.token_b_balance ≤
          t.token_a_balance * t.token_b_balance := by
  induction l with
  | nil => exact fun s ha hb _ => ⟨s, rfl, ha, hb, Nat.le_refl _⟩
  | cons p tl ih =>
    intro s ha hb hl
    obtain ⟨d, x⟩ := p
    have hx : 0 < x := hl (d, x) (List.mem_cons_self _ _)
    obtain ⟨t, ht, hta, htb, hp1⟩ := applySwap_ok s d x ha hb hx
    obtain ⟨u, hu, hua, hub, hp2⟩ :=
      ih t hta htb (fun q hq => hl q (List.mem_cons_of_mem _ hq))
    refine ⟨u, ?_, hua, hub, le_trans hp1 hp2⟩
    simp only [SimpleDex.applySwaps]
    rw [ht]
    exact hu

/-! ## Claims about the swap engine -/

/-- C2: for `amountIn > 0` and both reserves positive, `swap_a_for_b`
returns `floor(amountIn * reserveOut / (reserveIn + amountIn))`, increases
the in-reserve by exactly `amountIn`, and decreases the out-reserve by
exactly the output (the output never exceeds the out-reserve, so the
unsigned subtraction is exact). -/
theorem swap_formula_and_reserve_deltas (s : SimpleDex) (x : Nat)
    (hx : 0 < x) (ha : 0 < s.token_a_balance) (hb : 0 < s.token_b_balance) :
    s.swap_a_for_b x =
      .ok ({ s with
             token_a_balance := s.token_a_balance + x
             token_b_balance :=
               s.token_b_balance -
                 x * s.token_b_balance / (s.token_a_balance + x) },
           x * s.token_b_balance / (s.token_a_balance + x)) ∧
    x * s.token_b_balance / (s.token_a_balance + x) ≤ s.token_b_balance :=
  ⟨swap_a_for_b_spec s x (by omega),
   amount_out_le x s.token_b_balance (s.token_a_balance + x) (by omega)
     (by omega)⟩

/-- C2 witness: spec scenario A.  A first deposit `add_liquidity(p, 1000,
1000)` on the empty pool mints `totalShares = 1000`; then a swap with
`amountIn = 100` against reserves `(1000, 1000)` returns `90` and leaves
reserves `(1100, 910)`. -/
theorem swap_formula_and_reserve_deltas_witness :
    ((SimpleDex.new 0 0 0).add_liquidity 7 1000 1000).2 = 1000 ∧
    ((SimpleDex.new 0 0 0).add_liquidity 7 1000 1000).1.total_liquidity = 1000 ∧
    ((((SimpleDex.new 0 0 0).add_liquidity 7 1000 1000).1.swap_a_for_b
        100).toOption.map
      (fun r => (r.1.token_a_balance, r.1.token_b_balance, r.2)) =
      some (1100, 910, 90)) := by
  refine ⟨rfl, rfl, ?_⟩
  rw [(swap_formula_and_reserve_deltas _ 100 (by decide) (by decide)
    (by decide)).1]
  rfl

/-- C3: for `amountIn > 0`, `reserveIn > 0`, `reserveOut > 0`, the swap
output `floor(amountIn * reserveOut / (reserveIn + amountIn))` is strictly
below `reserveOut`: one swap can never return the whole out-reserve. -/
theorem swap_output_strictly_below_reserve (x rin rout : Nat)
    (hx : 0 < x) (hin : 0 < rin) (hout : 0 < rout) :
    SimpleDex.get_amount_out x rin rout = .ok (x * rout / (rin + x)) ∧
    x * rout / (rin + x) < rout :=
  ⟨by unfold SimpleDex.get_amount_out; rw [if_neg (by omega)],
   amount_out_lt x rin rout hin hout⟩

/-- C3 witness at `amountIn = 100`, reserves `(1000, 1000)`. -/
theorem swap_output_strictly_below_reserve_witness :
    SimpleDex.get_amount_out 100 1000 1000 =
      .ok (100 * 1000 / (1000 + 100)) ∧
    100 * 1000 / (1000 + 100) < 1000 :=
  swap_output_strictly_below_reserve 100 1000 1000 (by decide) (by decide)
    (by decide)

/-- C4: from a pool with both reserves positive, any sequence of swaps (in
either direction, each with `amountIn > 0`) succeeds and the reserve
product `reserveA * reserveB` after the sequence is at least its value
before: floor rounding never decreases the constant product. -/
theorem swap_sequence_product_nondecreasing (s : SimpleDex)
    (l : List (SwapDir × Nat))
    (ha : 0 < s.token_a_balance) (hb : 0 < s.token_b_balance)
    (hl : ∀ p ∈ l, 0 < p.2) :
    ∃ t, s.applySwaps l = .ok t ∧
      s.token_a_balance * s.token_b_balance ≤
        t.token_a_balance * t.token_b_balance := by
  obtain ⟨t, ht, _, _, hle⟩ := applySwaps_ok l s ha hb hl
  exact ⟨t, ht, hle⟩

/-- C4 witness: three swaps from reserves `(1000, 1000)`. -/
theorem swap_sequence_product_nondecreasing_witness :
    ∃ t, (⟨1000, 1000, 1000, fun _ => 0⟩ : SimpleDex).applySwaps
        [(SwapDir.aForB, 100), (SwapDir.bForA, 50), (SwapDir.aForB, 3)] =
        .ok t ∧
      1000 * 1000 ≤ t.token_a_balance * t.token_b_balance :=
  swap_sequence_product_nondecreasing _ _ (by decide) (by decide)
    (by decide)

/-! ## Claims about the liquidity engine -/

/-- Exact description of `add_liquidity` with two nonzero amounts: the
minted amount is `min amount_a amount_b` whatever the pool state is. -/
lemma add_liquidity_spec (s : SimpleDex) (p a b : Nat)
    (h : ¬(a = 0 ∨ b = 0)) :
    s.add_liquidity p a b =
      ({ token_a_balance := s.token_a_balance + a
         token_b_balance := s.token_b_balance + b
         total_liquidity := s.total_liquidity + min a b
         liquidity_providers := fun q =>
           if q = p then s.liquidity_providers p + min a b
           else s.liquidity_providers q }, min a b) := by
  unfold SimpleDex.add_liquidity SimpleDex.calculate_liquidity
  rw [if_neg h]

/-- C1 counterexample: on a pool with `totalShares = 1000`, `reserveA =
1000`, the deposit `(amountA, amountB) = (2000, 1)` mints `min(2000, 1) =
1` share, not the claimed `amountA * totalShares / reserveA = 2000`. -/
theorem add_liquidity_not_pro_rata :
    ((⟨1000, 1000, 1000, fun _ => 0⟩ : SimpleDex).add_liquidity 7 2000 1).2
      = 1 ∧
    (1 : Nat) ≠ 2000 * 1000 / 1000 :=
  ⟨rfl, by decide⟩

/-- C1 corrected: for every pool state with `totalShares > 0` and
`reserveA > 0`, and amounts `amountA > 0`, `amountB > 0`, `add_liquidity`
mints exactly `min amountA amountB` shares (the same policy as the first
deposit — the code never switches to pro-rata minting), adds both amounts
to the reserves, and credits the caller with the minted shares. -/
theorem add_liquidity_mints_min (s : SimpleDex) (p a b : Nat)
    (ht : 0 < s.total_liquidity) (hra : 0 < s.token_a_balance)
    (ha : 0 < a) (hb : 0 < b) :
    s.add_liquidity p a b =
      ({ token_a_balance := s.token_a_balance + a
         token_b_balance := s.token_b_balance + b
         total_liquidity := s.total_liquidity + min a b
         liquidity_providers := fun q =>
           if q = p then s.liquidity_providers p + min a b
           else s.liquidity_providers q }, min a b) :=
  add_liquidity_spec s p a b (by omega)

/-- C1 corrected, witness at the counterexample state. -/
theorem add_liquidity_mints_min_witness :
    (⟨1000, 1000, 1000, fun _ => 0⟩ : SimpleDex).add_liquidity 7 2000 1 =
      ({ token_a_balance := 1000 + 2000
         token_b_balance := 1000 + 1
         total_liquidity := 1000 + min 2000 1
         liquidity_providers := fun q =>
           if q = 7 then (fun _ => (0 : Nat)) 7 + min 2000 1
           else (fun _ => (0 : Nat)) q }, min 2000 1) :=
  add_liquidity_mints_min ⟨1000, 1000, 1000, fun _ => 0⟩ 7 2000 1
    (by decide) (by decide) (by decide) (by decide)

/-- C6 counterexample: `add_liquidity(p, 5, 0)` on the pool `(10, 10,
1000 shares)` does not fail — it returns `0` minted shares and still
raises `reserveA` from `10` to `15`, so the pool state changes. -/
theorem add_liquidity_zero_amount_changes_state :
    ((⟨10, 10, 1000, fun _ => 0⟩ : SimpleDex).add_liquidity 3 5 0).2 = 0 ∧
    ((⟨10, 10, 1000, fun _ => 0⟩ : SimpleDex).add_liquidity 3 5 0).1.token_a_balance
      = 15 ∧
    (⟨10, 10, 1000, fun _ => 0⟩ : SimpleDex).token_a_balance = 10 :=
  ⟨rfl, rfl, rfl⟩

/-- C6 corrected: with `amountA = 0` or `amountB = 0`, `add_liquidity`
does not fail (it has no error path): it mints `0` shares and leaves
`totalShares` and every provider balance unchanged, but it still
increments the reserves by the given amounts, so the pool state is not
left unchanged whenever a nonzero amount is passed on the other side. -/
theorem add_liquidity_zero_amount_no_guard (s : SimpleDex) (p a b : Nat)
    (h : a = 0 ∨ b = 0) :
    (s.add_liquidity p a b).2 = 0 ∧
    (s.add_liquidity p a b).1.token_a_balance = s.token_a_balance + a ∧
    (s.add_liquidity p a b).1.token_b_balance = s.token_b_balance + b ∧
    (s.add_liquidity p a b).1.total_liquidity = s.total_liquidity ∧
    ∀ q, (s.add_liquidity p a b).1.liquidity_providers q =
      s.liquidity_providers q := by
  unfold SimpleDex.add_liquidity SimpleDex.calculate_liquidity
  rw [if_pos h]
  refine ⟨rfl, rfl, rfl, rfl, fun q => ?_⟩
  dsimp only
  by_cases hq : q = p <;> simp [hq]

/-- C6 corrected, witness at the counterexample input. -/
theorem add_liquidity_zero_amount_no_guard_witness :
    ((⟨10, 10, 1000, fun _ => 0⟩ : SimpleDex).add_liquidity 3 5 0).2 = 0 ∧
    ((⟨10, 10, 1000, fun _ => 0⟩ : SimpleDex).add_liquidity 3 5 0).1.token_a_balance
      = 10 + 5 ∧
    ((⟨10, 10, 1000, fun _ => 0⟩ : SimpleDex).add_liquidity 3 5 0).1.token_b_balance
      = 10 + 0 ∧
    ((⟨10, 10, 1000, fun _ => 0⟩ : SimpleDex).add_liquidity 3 5 0).1.total_liquidity
      = 1000 ∧
    ∀ q, ((⟨10, 10, 1000, fun _ => 0⟩ : SimpleDex).add_liquidity 3 5 0).1.liquidity_providers q
      = (fun _ => (0 : Nat)) q :=
  add_liquidity_zero_amount_no_guard ⟨10, 10, 1000, fun _ => 0⟩ 3 5 0
    (Or.inr rfl)

/-- Exact description of a successful `remove_liquidity`: with a positive
total supply, enough caller shares, and `liquidity` no larger than the
total supply, every guard passes and the call pays out pro rata. -/
lemma remove_liquidity_spec (s : SimpleDex) (p k : Nat)
    (ht : 0 < s.total_liquidity) (hp : k ≤ s.liquidity_providers p)
    (hk : k ≤ s.total_liquidity) :
    s.remove_liquidity p k =
      .ok ({ token_a_balance :=
               s.token_a_balance - k * s.token_a_balance / s.total_liquidity
             token_b_balance :=
               s.token_b_balance - k * s.token_b_balance / s.total_liquidity
             total_liquidity := s.total_liquidity - k
             liquidity_providers := fun q =>
               if q = p then s.liquidity_providers p - k
               else s.liquidity_providers q },
           k * s.token_a_balance / s.total_liquidity,
           k * s.token_b_balance / s.total_liquidity) := by
  unfold SimpleDex.remove_liquidity
  rw [if_neg (by omega), if_neg (by omega),
    if_pos (amount_out_le k s.token_a_balance s.total_liquidity hk ht),
    if_pos (amount_out_le k s.token_b_balance s.total_liquidity hk ht),
    if_pos hk]

/-- C5: for every pool state satisfying the share-supply invariant of the
data model (`totalShares` equals the sum of all provider shares, so no
single provider holds more than `totalShares`), with `totalShares > 0` and
`sharesOf(p) ≥ shares`, `remove_liquidity(p, shares)` returns exactly
`(shares * reserveA / totalShares, shares * reserveB / totalShares)` with
floor division, and decrements the reserves by those amounts, and
`totalShares` and `sharesOf(p)` by `shares`. -/
theorem remove_liquidity_pro_rata (s : SimpleDex) (p k : Nat)
    (ht : 0 < s.total_liquidity) (hp : k ≤ s.liquidity_providers p)
    (hWf : ∀ q, s.liquidity_providers q ≤ s.total_liquidity) :
    s.remove_liquidity p k =
      .ok ({ token_a_balance :=
               s.token_a_balance - k * s.token_a_balance / s.total_liquidity
             token_b_balance :=
               s.token_b_balance - k * s.token_b_balance / s.total_liquidity
             total_liquidity := s.total_liquidity - k
             liquidity_providers := fun q =>
               if q = p then s.liquidity_providers p - k
               else s.liquidity_providers q },
           k * s.token_a_balance / s.total_liquidity,
           k * s.token_b_balance / s.total_liquidity) :=
  remove_liquidity_spec s p k ht hp (le_trans hp (hWf p))

/-- C5 witness: spec scenario B.  A provider holding all `1000` shares
removes `500` against reserves `(1100, 910)`: the call returns
`(550, 455)` and leaves `500` shares, `500` provider shares, and reserves
`(550, 455)`. -/
theorem remove_liquidity_pro_rata_witness :
    (((⟨1100, 910, 1000, fun q => if q = 7 then 1000 else 0⟩ :
        SimpleDex).remove_liquidity 7 500).toOption.map
      (fun r => (r.1.token_a_balance, r.1.token_b_balance,
                 r.1.total_liquidity, r.1.liquidity_providers 7,
                 r.2.1, r.2.2))) =
      some (550, 455, 500, 500, 550, 455) := by
  rw [remove_liquidity_pro_rata _ 7 500 (by decide) (by decide)
    (fun q => by dsimp only; split <;> omega)]
  rfl

/-- C10: with `totalShares = 0`, the call `remove_liquidity(p, 0)` passes
the share-ownership check (`0 ≥ 0`) and then divides by
`totalShares = 0`: the division panic is reachable at the public
interface, and the call is not rejected as `InsufficientShares`. -/
theorem remove_liquidity_zero_shares_div_by_zero (s : SimpleDex) (p : Nat)
    (h : s.total_liquidity = 0) :
    s.remove_liquidity p 0 = .error .divByZero ∧
    s.remove_liquidity p 0 ≠ .error .insufficientLiquidity := by
  have hmain : s.remove_liquidity p 0 = .error .divByZero := by
    unfold SimpleDex.remove_liquidity
    rw [if_neg (by omega), if_pos h]
  exact ⟨hmain, by rw [hmain]; simp⟩

/-- C10 witness: a pool constructed with a zero side has
`totalShares = 0`, and `remove_liquidity(p, 0)` on it divides by zero. -/
theorem remove_liquidity_zero_shares_div_by_zero_witness :
    (⟨5, 0, 0, fun _ => 0⟩ : SimpleDex).remove_liquidity 3 0 =
      .error .divByZero ∧
    (⟨5, 0, 0, fun _ => 0⟩ : SimpleDex).remove_liquidity 3 0 ≠
      .error .insufficientLiquidity :=
  remove_liquidity_zero_shares_div_by_zero ⟨5, 0, 0, fun _ => 0⟩ 3 rfl

/-! ## Round trip and ownership guards -/

/-- C8 counterexample: on the non-empty pool `(reserveA, reserveB,
totalShares) = (1000, 500, 700)`, `add_liquidity(p, 10, 10)` mints `10`
shares and the immediate `remove_liquidity(p, 10)` returns `(14, 7)`, not
`(10, 10)`. -/
theorem round_trip_not_exact_on_general_state :
    (let r1 := (⟨1000, 500, 700, fun _ => 0⟩ : SimpleDex).add_liquidity 7 10 10
     (r1.1.remove_liquidity 7 r1.2).toOption.map (fun r => (r.2.1, r.2.2)))
      = some (14, 7) ∧
    ((14 : Nat), (7 : Nat)) ≠ (10, 10) :=
  ⟨rfl, by decide⟩

/-- C8 corrected: starting from the empty pool (both reserves and
`totalShares` zero — the only state where a deposit sets the exchange
rate rather than mixing with existing reserves), `add_liquidity(p, a, b)`
followed by `remove_liquidity(p, sharesMinted)` with no interleaving
operations returns `(a, b)` exactly, restores `p`'s share balance (net
change 0), and leaves `totalShares = 0`. -/
theorem add_remove_round_trip_empty_pool (f : Nat → Nat) (p a b : Nat)
    (ha : 0 < a) (hb : 0 < b) :
    (((SimpleDex.mk 0 0 0 f).add_liquidity p a b).1.remove_liquidity p
        ((SimpleDex.mk 0 0 0 f).add_liquidity p a b).2).toOption.map
      (fun r => (r.2.1, r.2.2, r.1.liquidity_providers p,
                 r.1.total_liquidity)) =
      some (a, b, f p, 0) := by
  have hm : 0 < min a b := by omega
  rw [add_liquidity_spec (SimpleDex.mk 0 0 0 f) p a b (by omega)]
  have hdiva : min a b * (0 + a) / (0 + min a b) = a := by
    rw [Nat.zero_add, Nat.zero_add]
    exact Nat.mul_div_cancel_left a hm
  have hdivb : min a b * (0 + b) / (0 + min a b) = b := by
    rw [Nat.zero_add, Nat.zero_add]
    exact Nat.mul_div_cancel_left b hm
  rw [remove_liquidity_spec _ p (min a b) (by dsimp; omega)
    (by dsimp; rw [if_pos rfl]; omega) (by dsimp; omega)]
  dsimp [Except.toOption]
  rw [if_pos rfl, hdiva, hdivb]
  simp

/-- C8 corrected, witness: `a = 3`, `b = 5` on the empty pool with no
prior providers. -/
theorem add_remove_round_trip_empty_pool_witness :
    (((SimpleDex.mk 0 0 0 (fun _ => 0)).add_liquidity 7 3 5).1.remove_liquidity 7
        ((SimpleDex.mk 0 0 0 (fun _ => 0)).add_liquidity 7 3 5).2).toOption.map
      (fun r => (r.2.1, r.2.2, r.1.liquidity_providers 7,
                 r.1.total_liquidity)) =
      some (3, 5, 0, 0) :=
  add_remove_round_trip_empty_pool (fun _ => 0) 7 3 5 (by decide) (by decide)

/-- C9 counterexample: in `market_maker`, a caller whose recorded token
balance is `0` successfully calls `withdraw_liquidity(100, 0)` against
`eth_reserve = 100`: the call succeeds (transferring the 100 units of ETH
to the caller) even though the caller owns nothing, so a withdrawal can
pay out more than the caller's holdings. -/
theorem withdraw_liquidity_no_ownership_check :
    (⟨100, 0, fun _ => 0⟩ : MarketMaker).token_balances 7 = 0 ∧
    ((⟨100, 0, fun _ => 0⟩ : MarketMaker).withdraw_liquidity 7 100 0).toOption.map
      (fun t => (t.eth_reserve, t.token_reserve)) = some (0, 0) :=
  ⟨rfl, rfl⟩

/-- C9 corrected: the dex contract does enforce share ownership —
`remove_liquidity` rejects any request exceeding the caller's recorded
shares with `InsufficientShares`, so dex share balances never underflow —
but `market_maker.withdraw_liquidity` checks only the pool reserves: for
any caller (with any recorded balance, including `0`) and any
`eth_amount ≤ eth_reserve`, `withdraw_liquidity(eth_amount, 0)` succeeds
and pays `eth_amount` out, so a caller can withdraw value they do not
own. -/
theorem dex_guards_shares_mm_does_not (s : SimpleDex) (p k : Nat)
    (t : MarketMaker) (c e : Nat)
    (hk : s.liquidity_providers p < k) (he : e ≤ t.eth_reserve) :
    s.remove_liquidity p k = .error .insufficientLiquidity ∧
    t.withdraw_liquidity c e 0 =
      .ok { eth_reserve := t.eth_reserve - e
            token_reserve := t.token_reserve - 0
            token_balances := fun q =>
              if q = c then t.token_balances c - 0
              else t.token_balances q } := by
  constructor
  · unfold SimpleDex.remove_liquidity
    rw [if_pos hk]
  · unfold MarketMaker.withdraw_liquidity
    rw [if_pos ⟨he, Nat.zero_le _⟩, if_pos (Nat.zero_le _)]

/-- C9 corrected, witness: a caller with shares `0` asking the dex for
`5` shares is rejected, while a caller with recorded balance `0` obtains
`100` units of ETH from the market maker. -/
theorem dex_guards_shares_mm_does_not_witness :
    (⟨10, 10, 10, fun _ => 0⟩ : SimpleDex).remove_liquidity 3 5 =
      .error .insufficientLiquidity ∧
    (⟨100, 0, fun _ => 0⟩ : MarketMaker).withdraw_liquidity 7 100 0 =
      .ok { eth_reserve := 100 - 100
            token_reserve := 0 - 0
            token_balances := fun q =>
              if q = 7 then (fun _ => (0 : Nat)) 7 - 0
              else (fun _ => (0 : Nat)) q } :=
  dex_guards_shares_mm_does_not ⟨10, 10, 10, fun _ => 0⟩ 3 5
    ⟨100, 0, fun _ => 0⟩ 7 100 (by decide) (by decide)

/-! ## Zero-reserve swaps -/

/-- C7 counterexample: with a zero in-reserve, `swap_a_for_b(3)` against
reserves `(0, 5)` does not fail — it succeeds and returns the entire
out-reserve `5`; with a zero out-reserve, `swap_a_for_b(3)` against
`(5, 0)` succeeds returning `0`.  Neither call produces an error of any
kind. -/
theorem swap_zero_reserve_does_not_fail :
    (⟨0, 5, 0, fun _ => 0⟩ : SimpleDex).swap_a_for_b 3 =
      .ok (⟨3, 0, 0, fun _ => 0⟩, 5) ∧
    (⟨5, 0, 0, fun _ => 0⟩ : SimpleDex).swap_a_for_b 3 =
      .ok (⟨8, 0, 0, fun _ => 0⟩, 0) :=
  ⟨rfl, rfl⟩

/-- C7 corrected: a swap with `amountIn = x > 0` against a zero reserve
never executes a division by zero (the divisor `reserveIn + amountIn` is
at least `amountIn > 0`), but it also does not fail with any error: with
`reserveIn = 0` it succeeds and returns the whole out-reserve, and with
`reserveOut = 0` it succeeds and returns `0`. -/
theorem swap_zero_reserve_no_failure (s : SimpleDex) (x : Nat)
    (hx : 0 < x) :
    (s.token_a_balance = 0 →
      s.swap_a_for_b x =
        .ok ({ s with token_a_balance := s.token_a_balance + x
                      token_b_balance := 0 }, s.token_b_balance)) ∧
    (s.token_b_balance = 0 →
      s.swap_a_for_b x =
        .ok ({ s with token_a_balance := s.token_a_balance + x
                      token_b_balance := 0 }, 0)) := by
  constructor
  · intro h0
    have h1 : x * s.token_b_balance / (s.token_a_balance + x) =
        s.token_b_balance := by
      rw [h0, Nat.zero_add]
      exact Nat.mul_div_cancel_left _ hx
    rw [swap_a_for_b_spec s x (by omega), h1, Nat.sub_self]
  · intro h0
    have h1 : x * s.token_b_balance / (s.token_a_balance + x) = 0 := by
      rw [h0, Nat.mul_zero, Nat.zero_div]
    rw [swap_a_for_b_spec s x (by omega), h1, h0]

/-- C7 corrected, witness at the two counterexample pools. -/
theorem swap_zero_reserve_no_failure_witness :
    ((⟨0, 5, 0, fun _ => 0⟩ : SimpleDex).swap_a_for_b 3 =
      .ok ({ (⟨0, 5, 0, fun _ => 0⟩ : SimpleDex) with
             token_a_balance := 0 + 3
             token_b_balance := 0 }, 5)) ∧
    ((⟨5, 0, 0, fun _ => 0⟩ : SimpleDex).swap_a_for_b 3 =
      .ok ({ (⟨5, 0, 0, fun _ => 0⟩ : SimpleDex) with
             token_a_balance := 5 + 3
             token_b_balance := 0 }, 0)) :=
  ⟨(swap_zero_reserve_no_failure ⟨0, 5, 0, fun _ => 0⟩ 3 (by decide)).1 rfl,
   (swap_zero_reserve_no_failure ⟨5, 0, 0, fun _ => 0⟩ 3 (by decide)).2 rfl⟩
